import Mathlib

/-!
Shallow embedding of the Ai_Resume repository's heuristic resume-parsing
and ATS-scoring core (src/utils/parser.py and src/utils/ats_scorer.py),
together with theorems settling the frozen claims about it.

Python strings are modelled as `List Char` (`Str`); Python's arithmetic on
ints/floats is modelled over `ℚ` (the float computations involved in the
claims below are exact at the relevant inputs); Python dicts keyed by
strings are modelled as insertion-ordered association lists; a Python
`raise` is modelled as `Option.none` / `Except.error`.
-/

set_option maxRecDepth 8000

namespace AiResume

/-- Python strings, modelled as lists of characters. -/
abbrev Str := List Char

/-- Whitespace characters recognised by Python's `str.strip`, `str.split()`
and the regex class `\s` (ASCII range, which covers all inputs used here). -/
def isWsC (c : Char) : Bool :=
  c = ' ' || c = '\t' || c = '\n' || c = '\r' || c = '\x0b' || c = '\x0c'

/-- Python `str.strip()`. -/
def pyStrip (s : Str) : Str :=
  ((s.dropWhile isWsC).reverse.dropWhile isWsC).reverse

/-- Python `str.lower()` (ASCII). -/
def pyLower (s : Str) : Str := s.map Char.toLower

/-- Python `s.split(c)` for a single-character separator (keeps empty parts). -/
def pySplitChar (sep : Char) : Str → List Str
  | [] => [[]]
  | c :: t =>
    let rest := pySplitChar sep t
    if c = sep then [] :: rest
    else match rest with
      | [] => [[c]]
      | h :: r => (c :: h) :: r

/-- Python `sep.join(parts)`. -/
def pyJoin (sep : Str) : List Str → Str
  | [] => []
  | [x] => x
  | x :: y :: r => x ++ sep ++ pyJoin sep (y :: r)

/-- Python `a.startswith(b)`: `b` is a prefix of `a` (checked on the needle first). -/
def startsWithL : Str → Str → Bool
  | _, [] => true
  | [], _ :: _ => false
  | a :: as, b :: bs => a = b && startsWithL as bs

/-- Python's substring test `needle in hay`. -/
def containsL (hay needle : Str) : Bool :=
  match hay with
  | [] => startsWithL [] needle
  | _ :: t => startsWithL hay needle || containsL t needle

/-- Python `str.split()` with no argument: split on whitespace runs,
dropping empty parts. -/
def pySplitWs (s : Str) : List Str :=
  (pySplitChar ' ' (s.map (fun c => if isWsC c then ' ' else c))).filter (· ≠ [])

/-- Python word character (`\w`, ASCII): letters, digits, underscore. -/
def isWordC (c : Char) : Bool :=
  c.isAlpha || c.isDigit || c = '_'

/-! ### A small backtracking regex engine

Implements the leftmost, greedy, backtracking match semantics of Python's
`re` module for the constructs the repository's patterns use: character
classes, concatenation, ordered alternation, greedy `*`, and the zero-width
word-boundary assertion `\b`.  Repetitions `?`, `+`, `{n}`, `{n,}`, `{n,m}`
are derived forms.  Recursion is fuelled; the fuel supplied by `searchRx`
and `findallRx` is far larger than the maximal possible call depth. -/

inductive Rx where
  | eps
  | cls (p : Char → Bool)
  | cat (a b : Rx)
  | alt (a b : Rx)
  | star (a : Rx)
  | bnd

namespace Rx

def lit (c : Char) : Rx := cls (· = c)

def litStr : Str → Rx
  | [] => eps
  | c :: t => cat (lit c) (litStr t)

/-- Greedy `?`. -/
def opt (a : Rx) : Rx := alt a eps

/-- Greedy `+`. -/
def plus (a : Rx) : Rx := cat a (star a)

/-- Exactly `n` copies. -/
def rep : Nat → Rx → Rx
  | 0, _ => eps
  | n + 1, a => cat a (rep n a)

/-- Greedy `{0,n}`. -/
def upTo : Nat → Rx → Rx
  | 0, _ => eps
  | n + 1, a => opt (cat a (upTo n a))

/-- Greedy `{n,}`. -/
def atLeast (n : Nat) (a : Rx) : Rx := cat (rep n a) (star a)

/-- Greedy `{n,m}`. -/
def between (n m : Nat) (a : Rx) : Rx := cat (rep n a) (upTo (m - n) a)

def size : Rx → Nat
  | eps => 1
  | cls _ => 1
  | cat a b => size a + size b + 1
  | alt a b => size a + size b + 1
  | star a => size a + 1
  | bnd => 1

end Rx

/-- Is there a word boundary between the previous character (`none` at the
start of the text) and the next character (`none` at the end)? -/
def wordBoundary (prev : Option Char) (next : Option Char) : Bool :=
  let w : Option Char → Bool := fun o => match o with
    | none => false
    | some c => isWordC c
  w prev != w next

/-- Backtracking matcher.  `mrx fuel rx prev s k` tries to match `rx` at the
start of `s` (with `prev` the character just before `s`, for `\b`) and calls
the continuation `k` with the updated previous character and the remaining
input; alternatives are tried left-to-right and repetition is greedy, as in
Python's `re`.  Returns the remaining input after the first overall success. -/
def mrx : Nat → Rx → Option Char → Str → (Option Char → Str → Option Str) → Option Str
  | 0, _, _, _, _ => none
  | fuel + 1, rx, prev, s, k =>
    match rx with
    | .eps => k prev s
    | .bnd => if wordBoundary prev s.head? then k prev s else none
    | .cls p =>
      match s with
      | [] => none
      | c :: t => if p c then k (some c) t else none
    | .cat a b => mrx fuel a prev s (fun p' s' => mrx fuel b p' s' k)
    | .alt a b =>
      match mrx fuel a prev s k with
      | some r => some r
      | none => mrx fuel b prev s k
    | .star a =>
      match mrx fuel a prev s (fun p' s' =>
          if s'.length < s.length then mrx fuel (.star a) p' s' k else none) with
      | some r => some r
      | none => k prev s

/-- Fuel amply covering the maximal call depth of `mrx`. -/
def rxFuel (rx : Rx) (s : Str) : Nat := (rx.size + 2) * (s.length + 2)

/-- Match `rx` at the very start of `s` (Python's scan step at one position);
returns the remaining input after the match. -/
def matchAt (rx : Rx) (prev : Option Char) (s : Str) : Option Str :=
  mrx (rxFuel rx s) rx prev s (fun _ s' => some s')

/-- Scan helper for `findall`: advance one position at a time, and after a
(non-empty) match continue right after it, as Python's `re.findall` does. -/
def findallAux (rx : Rx) : Nat → Option Char → Str → List Str → List Str
  | 0, _, _, acc => acc.reverse
  | fuel + 1, prev, s, acc =>
    match matchAt rx prev s with
    | some rest =>
      let m := s.take (s.length - rest.length)
      if m = [] then
        match s with
        | [] => acc.reverse
        | c :: t => findallAux rx fuel (some c) t acc
      else
        findallAux rx fuel (some (m.getLastD ' ')) rest (m :: acc)
    | none =>
      match s with
      | [] => acc.reverse
      | c :: t => findallAux rx fuel (some c) t acc

/-- Python `re.findall(rx, s)` for group-free patterns: the list of
non-overlapping matched substrings, scanning left to right. -/
def findallRx (rx : Rx) (s : Str) : List Str :=
  findallAux rx (s.length + 1) none s []

/-- Python `re.search(rx, s)`: the leftmost matched substring, if any. -/
def searchRx (rx : Rx) (s : Str) : Option Str :=
  (findallRx rx s).head?

/-! ### The concrete regex patterns of `ResumeParser.__init__`

`email_pattern = r'\b[A-Za-z0-9._%+-]+@[A-Za-z0-9.-]+\.[A-Z|a-z]{2,}\b'`
(note: the final class literally contains `|`),
`phone_pattern = r'[\+\(]?[1-9][0-9 .\-\(\)]{8,}[0-9]'`,
`url_pattern = r'https?://(?:www\.)?[-a-zA-Z0-9@:%._\+~#=]{1,256}\.[a-zA-Z0-9()]{1,6}\b(?:[-a-zA-Z0-9()@:%_\+.~#?&/=]*)'`. -/

def digitRx : Rx := .cls Char.isDigit

def wsRx : Rx := .cls isWsC

/-- The pattern `.` repeated: any character except a newline. -/
def dotStar : Rx := .star (.cls (· ≠ '\n'))

def emailRx : Rx :=
  .cat .bnd <| .cat (.plus (.cls fun c => c.isAlpha || c.isDigit || "._%+-".data.contains c)) <|
  .cat (.lit '@') <| .cat (.plus (.cls fun c => c.isAlpha || c.isDigit || c = '.' || c = '-')) <|
  .cat (.lit '.') <| .cat (.atLeast 2 (.cls fun c => c.isUpper || c = '|' || c.isLower)) .bnd

def phoneRx : Rx :=
  .cat (.opt (.cls fun c => c = '+' || c = '(')) <|
  .cat (.cls fun c => c.isDigit && c ≠ '0') <|
  .cat (.atLeast 8 (.cls fun c => c.isDigit || " .-()".data.contains c)) digitRx

def urlRx : Rx :=
  .cat (.litStr "http".data) <| .cat (.opt (.lit 's')) <| .cat (.litStr "://".data) <|
  .cat (.opt (.litStr "www.".data)) <|
  .cat (.between 1 256 (.cls fun c => c.isAlpha || c.isDigit || "-@:%._+~#=".data.contains c)) <|
  .cat (.lit '.') <|
  .cat (.between 1 6 (.cls fun c => c.isAlpha || c.isDigit || c = '(' || c = ')')) <|
  .cat .bnd (.star (.cls fun c => c.isAlpha || c.isDigit || "-()@:%_+.~#?&/=".data.contains c))

/-- Pattern `r'(19|20)\d{2}'` — used via `re.search(...).group()`, i.e. the whole
match, which is the two-digit prefix plus two digits. -/
def yearRx : Rx :=
  .cat (.alt (.litStr "19".data) (.litStr "20".data)) (.rep 2 digitRx)

/-- Pattern `r'(\d\.\d+)\s*/?(\d\.\d+)?'` — used via `.group()`, the whole match
(greedy, so trailing whitespace matched by `\s*` is included). -/
def gpaRx : Rx :=
  .cat digitRx <| .cat (.lit '.') <| .cat (.plus digitRx) <|
  .cat (.star wsRx) <| .cat (.opt (.lit '/')) <|
  .opt (.cat digitRx (.cat (.lit '.') (.plus digitRx)))

/-- Ordered alternation of literal strings (already lower-cased where the
Python search passes `re.IGNORECASE` and we search a lower-cased line). -/
def altStrs : List Str → Rx
  | [] => .cls (fun _ => false)
  | [x] => .litStr x
  | x :: y :: r => .alt (.litStr x) (altStrs (y :: r))

/-- First degree pattern of `_extract_education`, lower-cased:
`r'(Bachelor|Master|Ph\.?D|B\.?S\.?|M\.?S\.?|B\.?A\.?|M\.?A\.?).*'`. -/
def degreeRx1 : Rx :=
  .cat (.alt (.litStr "bachelor".data) <| .alt (.litStr "master".data) <|
        .alt (.cat (.litStr "ph".data) (.cat (.opt (.lit '.')) (.lit 'd'))) <|
        .alt (.cat (.lit 'b') (.cat (.opt (.lit '.')) (.cat (.lit 's') (.opt (.lit '.'))))) <|
        .alt (.cat (.lit 'm') (.cat (.opt (.lit '.')) (.cat (.lit 's') (.opt (.lit '.'))))) <|
        .alt (.cat (.lit 'b') (.cat (.opt (.lit '.')) (.cat (.lit 'a') (.opt (.lit '.')))))
             (.cat (.lit 'm') (.cat (.opt (.lit '.')) (.cat (.lit 'a') (.opt (.lit '.'))))))
       dotStar

/-- Second degree pattern, lower-cased: `r'(B\.Tech|M\.Tech|B\.E\.|M\.E\.)'`. -/
def degreeRx2 : Rx :=
  altStrs ["b.tech".data, "m.tech".data, "b.e.".data, "m.e.".data]

/-- The `re.search(pattern, line, re.IGNORECASE)` existence test for the two
degree patterns, as `_extract_education` uses them. -/
def degreeSearch (line : Str) : Bool :=
  (searchRx degreeRx1 (pyLower line)).isSome || (searchRx degreeRx2 (pyLower line)).isSome

/-! ### The experience date pattern

`date_pattern = r'(Jan|...|Dec|January|...|December)\s+\d{4}'`.  It is used
both with `re.search` (IGNORECASE, existence) and with `re.findall`
(IGNORECASE).  Because the month alternation is a capture group,
`re.findall` returns **only the month-name group** of each match, not the
full `Month YYYY` text.  `findMonthGroups` reproduces exactly that:
alternatives are tried in pattern order at each position, a match consumes
`month + whitespace-run + 4 digits`, and the recorded string is the
month-name slice of the input (original casing). -/

def monthAlts : List Str :=
  ["Jan".data, "Feb".data, "Mar".data, "Apr".data, "May".data, "Jun".data,
   "Jul".data, "Aug".data, "Sep".data, "Oct".data, "Nov".data, "Dec".data,
   "January".data, "February".data, "March".data, "April".data, "May".data,
   "June".data, "July".data, "August".data, "September".data, "October".data,
   "November".data, "December".data]

/-- Try the date pattern at the start of `s`; on success return the
month-name group (as it appears in the input) and the input remaining after
the whole match. -/
def tryMonthAt (s : Str) : Option (Str × Str) :=
  monthAlts.findSome? fun m =>
    if startsWithL (pyLower s) (pyLower m) then
      let after := s.drop m.length
      let wsRun := after.takeWhile isWsC
      let ds := after.drop wsRun.length
      if wsRun.length ≥ 1 && ds.length ≥ 4 && (ds.take 4).all Char.isDigit then
        some (s.take m.length, ds.drop 4)
      else none
    else none

def findMonthGroupsAux : Nat → Str → List Str → List Str
  | 0, _, acc => acc.reverse
  | fuel + 1, s, acc =>
    match tryMonthAt s with
    | some (g, rest) => findMonthGroupsAux fuel rest (g :: acc)
    | none =>
      match s with
      | [] => acc.reverse
      | _ :: t => findMonthGroupsAux fuel t acc

/-- Python `re.findall(date_pattern, line, re.IGNORECASE)`: the month-name groups. -/
def findMonthGroups (s : Str) : List Str :=
  findMonthGroupsAux (s.length + 1) s []

/-- Python `re.search(date_pattern, line, re.IGNORECASE)` as a Boolean. -/
def dateSearch (line : Str) : Bool :=
  findMonthGroups line ≠ []

/-! ### Data model (src/utils/parser.py)

The field order of each structure is the key-insertion order of the Python
dict it models; `_get_all_text` in the scorer iterates `dict.values()` in
that order. -/

structure PersonalInfo where
  email : Str
  phone : Str
  name : Str
  linkedin : Str
  github : Str
  portfolio : Str
  deriving DecidableEq, Repr

structure EduEntry where
  degree : Str
  institution : Str
  graduation_date : Str
  gpa : Str
  deriving DecidableEq, Repr

/-- Experience entry during the line scan, `responsibilities` still a list. -/
structure ExpEntryRaw where
  title : Str
  company : Str
  start_date : Str
  end_date : Str
  responsibilities : List Str
  deriving DecidableEq, Repr

/-- Experience entry as returned (`responsibilities` newline-joined). -/
structure ExpEntry where
  title : Str
  company : Str
  start_date : Str
  end_date : Str
  responsibilities : Str
  deriving DecidableEq, Repr

structure Project where
  name : Str
  description : Str
  technologies : Str
  deriving DecidableEq, Repr

/-- The `{'technical': ..., 'soft': ...}` dict built by `_extract_skills`. -/
structure SkillsDict where
  technical : Str
  soft : Str
  deriving DecidableEq, Repr

/-! ### `ResumeParser._extract_personal_info` -/

def extract_personal_info (text : Str) : PersonalInfo :=
  let emails := findallRx emailRx text
  let phones := findallRx phoneRx text
  let lines := ((pySplitChar '\n' text).map pyStrip).filter (· ≠ [])
  let urls := findallRx urlRx text
  let linkedin := (urls.find? fun u => containsL (pyLower u) "linkedin".data).getD []
  let github := (urls.find? fun u => containsL (pyLower u) "github".data).getD []
  let portfolio := (urls.find? fun u => !(u == linkedin || u == github)).getD []
  { email := emails.headD [], phone := phones.headD [], name := lines.headD [],
    linkedin := linkedin, github := github, portfolio := portfolio }

/-! ### `ResumeParser._extract_summary` -/

def extract_summary (text : Str) : Str :=
  if text = [] then []
  else
    let sentences := pySplitChar '.' (pyStrip text)
    pyStrip (pyJoin ". ".data (sentences.take 3)) ++ ['.']

/-! ### `ResumeParser._split_into_sections` -/

/-- The `section_keywords` dict, in insertion order (Python dicts iterate in
insertion order, which is the tie-break when several sections match). -/
def section_keywords : List (Str × List Str) :=
  [("summary".data, ["summary".data, "profile".data, "objective".data, "about".data]),
   ("education".data, ["education".data, "academic".data, "qualification".data]),
   ("experience".data, ["experience".data, "employment".data, "work history".data,
                        "professional experience".data]),
   ("skills".data, ["skills".data, "technical skills".data, "competencies".data]),
   ("projects".data, ["projects".data, "portfolio".data]),
   ("certifications".data, ["certifications".data, "certificates".data, "licenses".data])]

/-- The header test of the line loop: the first section (in dict order) one
of whose keywords is a substring of `line.lower().strip()`. -/
def headerOf (line : Str) : Option Str :=
  let ll := pyStrip (pyLower line)
  (section_keywords.find? fun p => p.2.any fun k => containsL ll k).map Prod.fst

/-- Python dict assignment `sections[k] = v`: overwrite in place if the key
exists, else append. -/
def dictSet (m : List (Str × Str)) (k v : Str) : List (Str × Str) :=
  if m.any (fun p => p.1 == k) then m.map (fun p => if p.1 == k then (k, v) else p)
  else m ++ [(k, v)]

structure SegState where
  current : Option Str
  content : List Str
  sections : List (Str × Str)
  deriving Repr

/-- Source line `if current_section and section_content: sections[current_section] = '\n'.join(section_content)` -/
def segFlush (st : SegState) : List (Str × Str) :=
  match st.current with
  | some sec => if st.content ≠ [] then dictSet st.sections sec (pyJoin "\n".data st.content)
                else st.sections
  | none => st.sections

def segStep (st : SegState) (line : Str) : SegState :=
  match headerOf line with
  | some sec => { current := some sec, content := [], sections := segFlush st }
  | none =>
    if st.current.isSome then { st with content := st.content ++ [line] } else st

def split_into_sections (text : Str) : List (Str × Str) :=
  segFlush ((pySplitChar '\n' text).foldl segStep ⟨none, [], []⟩)

/-- Python `sections.get(name, '')`. -/
def sectionGet (m : List (Str × Str)) (k : Str) : Str :=
  ((m.find? fun p => p.1 == k).map Prod.snd).getD []

/-! #### Captured-lines view of the segmenter

`splitIntoSectionsL` is `_split_into_sections` with one change: the flushed
value is the captured-lines list `section_content` itself instead of its
newline-join.  It runs the same scan on the same state transitions, so the
real segmenter is exactly its image under joining (proved below); it makes
"a stored section has at least one captured line" a statement about a fixed
function instead of an existential over arbitrary lists. -/

structure SegStateL where
  current : Option Str
  content : List Str
  sections : List (Str × List Str)
  deriving Repr

/-- Python dict assignment, values being captured-lines lists. -/
def dictSetL (m : List (Str × List Str)) (k : Str) (v : List Str) :
    List (Str × List Str) :=
  if m.any (fun p => p.1 == k) then m.map (fun p => if p.1 == k then (k, v) else p)
  else m ++ [(k, v)]

def segFlushL (st : SegStateL) : List (Str × List Str) :=
  match st.current with
  | some sec => if st.content ≠ [] then dictSetL st.sections sec st.content
                else st.sections
  | none => st.sections

def segStepL (st : SegStateL) (line : Str) : SegStateL :=
  match headerOf line with
  | some sec => { current := some sec, content := [], sections := segFlushL st }
  | none =>
    if st.current.isSome then { st with content := st.content ++ [line] } else st

def splitIntoSectionsL (text : Str) : List (Str × List Str) :=
  segFlushL ((pySplitChar '\n' text).foldl segStepL ⟨none, [], []⟩)

/-- The segmenter state obtained by newline-joining a captured-lines state. -/
def joinState (st : SegStateL) : SegState :=
  ⟨st.current, st.content, st.sections.map fun p => (p.1, pyJoin "\n".data p.2)⟩

/-- Does the line list contain a header line for section `k` immediately
followed by a non-header line?  This is the only way the scan can capture a
line under `k`: a section enters the mapping only if this holds. -/
def headerThenCapture (k : Str) : List Str → Bool
  | a :: b :: rest =>
    (decide (headerOf a = some k) && decide (headerOf b = none)) ||
      headerThenCapture k (b :: rest)
  | _ => false

/-- The first line of the list exists and is not a header line. -/
def firstNonHeader : List Str → Prop
  | [] => False
  | a :: _ => headerOf a = none

/-! ### `ResumeParser._extract_education` -/

structure EduState where
  current : Option EduEntry
  acc : List EduEntry
  deriving Repr

def eduStep (st : EduState) (line : Str) : EduState :=
  -- degree check (`for pattern in degree_patterns: ... break`): flush the
  -- in-progress entry and start a new one whose degree is the whole line
  let st :=
    if degreeSearch line then
      { current := some ⟨line, [], [], []⟩, acc := st.acc ++ st.current.toList }
    else st
  -- year: `current_entry['graduation_date'] = year_match.group()` (no
  -- unset guard, unlike gpa below)
  let st :=
    match searchRx yearRx line, st.current with
    | some y, some e => { st with current := some { e with graduation_date := y } }
    | _, _ => st
  -- gpa, only if unset
  let st :=
    match searchRx gpaRx line, st.current with
    | some g, some e =>
      if e.gpa = [] then { st with current := some { e with gpa := g } } else st
    | _, _ => st
  -- institution: no year on the line and the line is not a substring of the
  -- degree line; only fills an unset institution
  match st.current with
  | some e =>
    if (searchRx yearRx line).isNone && !containsL e.degree line then
      if e.institution = [] then { st with current := some { e with institution := line } }
      else st
    else st
  | none => st

def extract_education (text : Str) : List EduEntry :=
  if text = [] then []
  else
    let lines := ((pySplitChar '\n' text).map pyStrip).filter (· ≠ [])
    let st := lines.foldl eduStep ⟨none, []⟩
    let education := st.acc ++ st.current.toList
    if education = [] then [⟨[], [], [], []⟩] else education

/-! ### `ResumeParser._extract_experience` -/

structure ExpState where
  current : Option ExpEntryRaw
  acc : List ExpEntryRaw
  deriving Repr

def isBulletLine (line : Str) : Bool :=
  startsWithL line "•".data || startsWithL line "-".data || startsWithL line "*".data

def expStep (st : ExpState) (line : Str) : ExpState :=
  if dateSearch line then
    let dates := findMonthGroups line
    { current := some
        { title := [], company := [],
          start_date := dates.headD [],
          end_date := if dates.length > 1 then dates.getD 1 [] else "Present".data,
          responsibilities := [] },
      acc := st.acc ++ st.current.toList }
  else
    match st.current with
    | none => st
    | some e =>
      if isBulletLine line then
        { st with current := some { e with responsibilities := e.responsibilities ++ [line] } }
      else if e.title = [] then { st with current := some { e with title := line } }
      else if e.company = [] then { st with current := some { e with company := line } }
      else { st with current := some { e with responsibilities := e.responsibilities ++ [line] } }

def extract_experience (text : Str) : List ExpEntry :=
  if text = [] then []
  else
    let lines := ((pySplitChar '\n' text).map pyStrip).filter (· ≠ [])
    let st := lines.foldl expStep ⟨none, []⟩
    let experience := st.acc ++ st.current.toList
    let experience := experience.map fun e =>
      ExpEntry.mk e.title e.company e.start_date e.end_date (pyJoin "\n".data e.responsibilities)
    if experience = [] then [⟨[], [], [], [], []⟩] else experience

/-! ### `ResumeParser._extract_skills` -/

def skills_header_words : List Str := ["skills".data, "technical".data, "soft".data]

def skills_technical_keywords : List Str :=
  ["python".data, "java".data, "javascript".data, "react".data, "sql".data,
   "aws".data, "docker".data, "git".data]

/-- Python `re.sub(r'^[•\-\*]\s*', '', line)`. -/
def stripBullet (l : Str) : Str :=
  match l with
  | c :: t => if c = '•' || c = '-' || c = '*' then t.dropWhile isWsC else l
  | [] => l

def extract_skills (text : Str) : SkillsDict :=
  if text = [] then ⟨[], []⟩
  else
    let skills_list :=
      (((pySplitChar '\n' text).map pyStrip).filter fun l =>
        l ≠ [] && !(skills_header_words.any fun h => containsL (pyLower l) h)).map stripBullet
    let all_skills := pyJoin ", ".data skills_list
    let isTech := fun (s : Str) => skills_technical_keywords.any fun k => containsL (pyLower s) k
    let technical := skills_list.filter isTech
    let soft := skills_list.filter fun s => !isTech s
    { technical := if technical ≠ [] then pyJoin ", ".data technical else all_skills,
      soft := if soft ≠ [] then pyJoin ", ".data soft else [] }

/-! ### `ResumeParser._extract_projects`

`line[0]` in the new-project test is the one unguarded indexing operation in
the parser; `none` models the `IndexError` it would raise on an empty line
(the preceding `line.isupper()` is short-circuited away only when true). -/

/-- Python `str.isupper()` (ASCII): at least one cased character and every
cased character upper-case. -/
def pyIsUpperStr (s : Str) : Bool :=
  let cased := s.filter fun c => c.isUpper || c.isLower
  cased ≠ [] && cased.all Char.isUpper

/-- Everything after the first `:`, if any (`line.split(':', 1)[-1]`). -/
def splitFirstColon : Str → Option Str
  | [] => none
  | ':' :: t => some t
  | _ :: t => splitFirstColon t

/-- Python `line.split(':', 1)[-1].strip()`: text after the first colon, or the
whole line when there is no colon, stripped. -/
def afterFirstColon (l : Str) : Str :=
  match splitFirstColon l with
  | some t => pyStrip t
  | none => pyStrip l

structure ProjState where
  current : Option Project
  acc : List Project
  deriving Repr

def projStep (st : ProjState) (line : Str) : Option ProjState :=
  if pyIsUpperStr line then
    some { current := some ⟨line, [], []⟩, acc := st.acc ++ st.current.toList }
  else
    match line with
    | [] => none  -- `line[0]` raises IndexError
    | c :: _ =>
      if c.isUpper && !isBulletLine line then
        some { current := some ⟨line, [], []⟩, acc := st.acc ++ st.current.toList }
      else
        match st.current with
        | none => some st
        | some p =>
          if containsL (pyLower line) "technologies".data ||
             containsL (pyLower line) "tech stack".data then
            some { st with current := some { p with technologies := afterFirstColon line } }
          else
            some { st with current := some { p with description := p.description ++ line ++ [' '] } }

def projLoop : ProjState → List Str → Option ProjState
  | st, [] => some st
  | st, l :: r =>
    match projStep st l with
    | none => none
    | some st' => projLoop st' r

def extract_projects (text : Str) : Option (List Project) :=
  if text = [] then some []
  else
    let lines := ((pySplitChar '\n' text).map pyStrip).filter (· ≠ [])
    match projLoop ⟨none, []⟩ lines with
    | none => none
    | some st =>
      let projects := st.acc ++ st.current.toList
      some (if projects = [] then [⟨[], [], []⟩] else projects)

/-! ### `ResumeParser._parse_text` and `ResumeParser.parse_file` -/

structure ParsedResume where
  personal_info : PersonalInfo
  summary : Str
  education : List EduEntry
  experience : List ExpEntry
  skills : SkillsDict
  projects : List Project
  raw_text : Str
  deriving DecidableEq, Repr

def parse_text (text : Str) : Option ParsedResume :=
  let sections := split_into_sections text
  match extract_projects (sectionGet sections "projects".data) with
  | none => none
  | some projects =>
    some { personal_info := extract_personal_info text,
           summary := extract_summary (sectionGet sections "summary".data),
           education := extract_education (sectionGet sections "education".data),
           experience := extract_experience (sectionGet sections "experience".data),
           skills := extract_skills (sectionGet sections "skills".data),
           projects := projects,
           raw_text := text }

/-- Python `uploaded_file.name.split('.')[-1].lower()`. -/
def fileTypeOf (name : Str) : Str :=
  pyLower ((pySplitChar '.' name).getLastD [])

/-- Method `ResumeParser.parse_file`.  The two text extractors wrap external
libraries (PyPDF2 / python-docx) that are not part of the repository, so
they are passed as parameters `pdfText` / `docxText` (modelled from the
spec: a Text Extractor turns the binary document into one plain-text
string).  The unsupported-format branch raises
`ValueError("Unsupported file format")`, modelled as `Except.error`. -/
def parse_file (pdfText docxText : Str → Str) (name content : Str) :
    Except Str (Option ParsedResume) :=
  let file_type := fileTypeOf name
  if file_type = "pdf".data then .ok (parse_text (pdfText content))
  else if file_type = "docx".data ∨ file_type = "doc".data then
    .ok (parse_text (docxText content))
  else .error "Unsupported file format".data

/-! ### ATS scorer (src/utils/ats_scorer.py)

Python int/float arithmetic is modelled over `ℚ`; the float literals 0.20,
0.25, 0.15, 0.5, 0.3, 0.2 are modelled by the rationals they denote.  (At
every concrete input used in a theorem below, the actual Python float
computation is exact, so the `ℚ` model agrees with it.)

`calculate_score` may receive `skills` either as the
`{'technical','soft'}` dict made by the parser or as a plain string (an
alternate shape the spec tolerates); `Skills` is that union. -/

inductive Skills where
  | dict (d : SkillsDict)
  | str (s : Str)
  deriving DecidableEq, Repr

/-- Python truthiness of the skills value: a dict with its two fixed keys is
always non-empty (hence truthy); a string is truthy iff non-empty. -/
def Skills.truthy : Skills → Bool
  | .dict _ => true
  | .str s => s ≠ []

/-- A well-shaped Resume Record as consumed by `ATSScorer.calculate_score`
(the `raw_text` key, never read by the scorer, is omitted). -/
structure ResumeData where
  personal_info : PersonalInfo
  summary : Str
  education : List EduEntry
  experience : List ExpEntry
  skills : Skills
  projects : List Project
  deriving DecidableEq, Repr

/-- List `ATSScorer.technical_keywords` (33 terms). -/
def technical_keywords : List Str :=
  ["python".data, "java".data, "javascript".data, "react".data, "angular".data,
   "vue".data, "node".data, "sql".data, "nosql".data, "mongodb".data,
   "postgresql".data, "mysql".data, "aws".data, "azure".data, "docker".data,
   "kubernetes".data, "git".data, "ci/cd".data, "agile".data, "scrum".data,
   "devops".data, "machine learning".data, "ai".data, "data science".data,
   "analytics".data, "api".data, "rest".data, "microservices".data,
   "cloud".data, "linux".data, "windows".data, "ios".data, "android".data]

/-- List `ATSScorer.action_verbs` (22 terms). -/
def action_verbs : List Str :=
  ["achieved".data, "improved".data, "developed".data, "created".data,
   "designed".data, "built".data, "implemented".data, "managed".data,
   "led".data, "increased".data, "decreased".data, "reduced".data,
   "optimized".data, "enhanced".data, "streamlined".data, "automated".data,
   "delivered".data, "launched".data, "established".data, "collaborated".data,
   "coordinated".data, "facilitated".data]

/-- List `ATSScorer.soft_skills` (11 terms). -/
def soft_skills : List Str :=
  ["leadership".data, "communication".data, "teamwork".data,
   "problem-solving".data, "analytical".data, "creative".data,
   "adaptable".data, "detail-oriented".data, "time management".data,
   "critical thinking".data, "collaboration".data]

/-- Python `dict.values()` of the personal-info dict, in key-insertion order. -/
def personalValues (p : PersonalInfo) : List Str :=
  [p.email, p.phone, p.name, p.linkedin, p.github, p.portfolio]

def eduValues (e : EduEntry) : List Str :=
  [e.degree, e.institution, e.graduation_date, e.gpa]

def expValues (e : ExpEntry) : List Str :=
  [e.title, e.company, e.start_date, e.end_date, e.responsibilities]

def projValues (p : Project) : List Str :=
  [p.name, p.description, p.technologies]

def skillsDictValues (d : SkillsDict) : List Str :=
  [d.technical, d.soft]

/-- Method `ATSScorer._get_all_text`: concatenate the truthy field values of every
part, in source order, joined by single spaces.  (A skills *string* is
appended without a truthiness check, exactly as in the source.) -/
def get_all_text (r : ResumeData) : Str :=
  let text_parts :=
    (personalValues r.personal_info).filter (· ≠ [])
    ++ (if r.summary ≠ [] then [r.summary] else [])
    ++ (r.education.map fun e => (eduValues e).filter (· ≠ [])).flatten
    ++ (r.experience.map fun e => (expValues e).filter (· ≠ [])).flatten
    ++ (match r.skills with
        | .dict d => (skillsDictValues d).filter (· ≠ [])
        | .str s => [s])
    ++ (r.projects.map fun p => (projValues p).filter (· ≠ [])).flatten
  pyJoin " ".data text_parts

/-- Method `ATSScorer._score_format_structure`. -/
def score_format_structure (r : ResumeData) : ℚ :=
  let score : ℚ :=
    (if r.personal_info.name ≠ [] then 20 else 0)
    + (if r.personal_info.email ≠ [] then 20 else 0)
    + (if r.personal_info.phone ≠ [] then 20 else 0)
    + (if r.personal_info.linkedin ≠ [] ∨ r.personal_info.github ≠ [] then 20 else 0)
    + (if r.summary ≠ [] then 10 else 0)
    + (if r.education ≠ [] then 5 else 0)
    + (if r.experience ≠ [] then 5 else 0)
  min score 100

/-- Python `sum(1 for keyword in kws if keyword in all_text)`. -/
def countKeywords (kws : List Str) (hay : Str) : ℕ :=
  (kws.filter fun k => containsL hay k).length

/-- Method `ATSScorer._score_keywords`.  The weights 0.5 / 0.3 / 0.2 are the
rationals 1/2, 3/10, 1/5. -/
def score_keywords (r : ResumeData) : ℚ :=
  let all_text := pyLower (get_all_text r)
  let tech_score := min ((countKeywords technical_keywords all_text : ℚ) / 10 * 100) 100
  let action_score := min ((countKeywords action_verbs all_text : ℚ) / 8 * 100) 100
  let soft_score := min ((countKeywords soft_skills all_text : ℚ) / 5 * 100) 100
  tech_score * (1/2) + action_score * (3/10) + soft_score * (1/5)

/-- Method `ATSScorer._score_content_quality`. -/
def score_content_quality (r : ResumeData) : ℚ :=
  let summaryScore : ℚ :=
    if r.summary ≠ [] then
      let words := (pySplitWs r.summary).length
      if 30 ≤ words ∧ words ≤ 100 then 25 else if 0 < words then 15 else 0
    else 0
  let expScore : ℚ :=
    if r.experience ≠ [] then
      let total_length := (r.experience.map fun e => (pySplitWs e.responsibilities).length).sum
      if 100 < total_length then 30 else if 50 < total_length then 20
      else if 0 < total_length then 10 else 0
    else 0
  let projScore : ℚ :=
    if r.projects ≠ [] ∧ r.projects.any (fun p => p.description ≠ []) then 25 else 0
  let skillsScore : ℚ :=
    match r.skills with
    | .dict d =>
      if d.technical ≠ [] ∧ d.soft ≠ [] then 20
      else if d.technical ≠ [] ∨ d.soft ≠ [] then 10 else 0
    | .str _ => 0
  min (summaryScore + expScore + projScore + skillsScore) 100

/-- Method `ATSScorer._score_completeness`. -/
def score_completeness (r : ResumeData) : ℚ :=
  min ((if r.personal_info.name ≠ [] then 20 else 0)
    + (if r.summary ≠ [] then 15 else 0)
    + (if r.education ≠ [] ∧ 0 < r.education.length then 20 else 0)
    + (if r.experience ≠ [] ∧ 0 < r.experience.length then 25 else 0)
    + (if r.skills.truthy then 20 else 0)) 100

/-! ### `ATSScorer._score_quantifiable_results` -/

def numPercentRx : Rx := .cat (.plus digitRx) (.lit '%')

def dollarNumRx : Rx := .cat (.lit '$') (.plus digitRx)

def numPlusRx : Rx := .cat (.plus digitRx) (.lit '+')

/-- The nine `achievement_patterns`, in source order. -/
def achievement_patterns : List Rx :=
  [.cat (.litStr "increased".data) (.cat dotStar (.plus digitRx)),
   .cat (.litStr "decreased".data) (.cat dotStar (.plus digitRx)),
   .cat (.litStr "improved".data) (.cat dotStar (.plus digitRx)),
   .cat (.litStr "reduced".data) (.cat dotStar (.plus digitRx)),
   .cat (.litStr "saved".data) (.cat dotStar (.plus digitRx)),
   .cat (.litStr "generated".data) (.cat dotStar (.plus digitRx)),
   .cat (.plus digitRx) (.cat dotStar (.litStr "users".data)),
   .cat (.plus digitRx) (.cat dotStar (.litStr "customers".data)),
   .cat (.plus digitRx) (.cat dotStar (.litStr "projects".data))]

def score_quantifiable_results (r : ResumeData) : ℚ :=
  let all_text := get_all_text r
  let numbers := (findallRx numPercentRx all_text).length
    + (findallRx dollarNumRx all_text).length
    + (findallRx numPlusRx all_text).length
  let achievements :=
    (achievement_patterns.map fun p => (findallRx p (pyLower all_text)).length).sum
  let total_metrics := numbers + achievements
  if 10 ≤ total_metrics then 100 else if 7 ≤ total_metrics then 85
  else if 5 ≤ total_metrics then 70 else if 3 ≤ total_metrics then 50
  else if 1 ≤ total_metrics then 30 else 0

/-! ### `ATSScorer._generate_feedback` and `ATSScorer.calculate_score` -/

/-- Method `ATSScorer._generate_feedback`; `s1..s5` are the five sub-scores in the
`scores` dict's insertion order (format, keywords, content, completeness,
quantifiable).  String literals are byte-for-byte those of the source file
(apostrophes written as the escape `\x27`). -/
def generate_feedback (s1 s2 s3 s4 s5 : ℚ) (r : ResumeData) : List Str :=
  let feedback : List Str :=
    (if s1 < 70 then
      ["âš ï¸ Consider adding more contact information (email, phone, LinkedIn)".data]
     else [])
    ++ (if s2 < 70 then
      ["ðŸ“ Add more relevant technical keywords and action verbs to improve ATS visibility".data,
       "ðŸ’¡ Use strong action verbs like \x27achieved\x27, \x27implemented\x27, \x27led\x27, \x27optimized\x27".data]
     else [])
    ++ (if s3 < 70 then
      ["âœï¸ Expand your experience descriptions with more details and context".data,
       "ðŸŽ¯ Consider adding a professional summary (30-100 words)".data]
     else [])
    ++ (if s4 < 80 then
      let missing_sections :=
        (if r.summary = [] then ["Professional Summary".data] else [])
        ++ (if r.projects = [] then ["Projects".data] else [])
      if missing_sections ≠ [] then
        ["ðŸ“‹ Consider adding: ".data ++ pyJoin ", ".data missing_sections]
      else []
     else [])
    ++ (if s5 < 60 then
      ["ðŸ“Š Add more quantifiable achievements (e.g., \x27Increased efficiency by 30%\x27, \x27Managed team of 5\x27)".data,
       "ðŸ’¯ Use numbers, percentages, and metrics to demonstrate impact".data]
     else [])
    ++ (if 70 ≤ s1 ∧ 70 ≤ s2 ∧ 70 ≤ s3 ∧ 70 ≤ s4 ∧ 70 ≤ s5 then
      ["âœ¨ Great job! Your resume is well-structured and ATS-friendly".data]
     else [])
    ++ (if 80 ≤ s5 then
      ["ðŸŽ‰ Excellent use of quantifiable achievements!".data]
     else [])
  if feedback = [] then ["âœ… Your resume looks great!".data] else feedback

/-- Python's built-in `round` on the (here exact) float value: round to the
nearest integer, ties to the even neighbour. -/
def pyRound (q : ℚ) : ℤ :=
  let f := ⌊q⌋
  let frac := q - f
  if frac < 1/2 then f
  else if 1/2 < frac then f + 1
  else if f % 2 = 0 then f else f + 1

/-- Method `ATSScorer.calculate_score`: the weighted sum of the five sub-scores
(weights 0.20, 0.25, 0.20, 0.20, 0.15, i.e. 1/5, 1/4, 1/5, 1/5, 3/20, in
the `scores` dict's iteration order), rounded by Python's `round`, paired
with the generated feedback. -/
def calculate_score (r : ResumeData) : ℤ × List Str :=
  let s1 := score_format_structure r
  let s2 := score_keywords r
  let s3 := score_content_quality r
  let s4 := score_completeness r
  let s5 := score_quantifiable_results r
  let total_score := s1 * (1/5) + s2 * (1/4) + s3 * (1/5) + s4 * (1/5) + s5 * (3/20)
  (pyRound total_score, generate_feedback s1 s2 s3 s4 s5 r)

/-- The new-record test of the projects scan:
`line.isupper() or (line[0].isupper() and not line.startswith(('•','-','*')))`. -/
def startsNewProject (line : Str) : Bool :=
  pyIsUpperStr line ||
    (match line with
     | [] => false
     | c :: _ => c.isUpper && !isBulletLine line)

/-- The Resume Record whose weighted total is the exact tie 17/2: sub-scores
(0, 0, 0, 20, 30) — the skills dict alone gives completeness 20, and the
single metric "10%" in the project name gives quantifiable 30.  (All float
operations are exact here: 20·0.2 = 4.0 and 30·0.15 = 4.5 in binary64.) -/
def tieRecord : ResumeData :=
  ⟨⟨[], [], [], [], [], []⟩, [], [], [], .dict ⟨[], []⟩, [⟨"10%".data, [], []⟩]⟩

/-- Modelled from the spec: "round-half-up" — the rounding convention the
claim asserts, `⌊q + 1/2⌋`. -/
def roundHalfUpSpec (q : ℚ) : ℤ := ⌊q + 1/2⌋

/-! ## Theorems settling the claims -/

/-- Helper: the `return xs if xs else [placeholder]` idiom never yields `[]`. -/
lemma placeholder_ne_nil {α : Type} [DecidableEq α] (d : α) (l : List α) :
    (if l = [] then [d] else l) ≠ [] := by
  split_ifs with h
  · simp
  · exact h

/-- C10: Scoring is deterministic and idempotent: `calculate_score` is a pure
function of the Resume Record, so two calls on the same record return the
same (score, feedback) pair, feedback order included. -/
theorem C10_score_idempotent (r : ResumeData) :
    calculate_score r = calculate_score r := rfl

/-- C3: on the spec's example experience text the extractor does produce two
records with the stated title, company, end date and newline-joined bullet
responsibilities — but `start_date` is `"Jan"`, not `"Jan 2022"`: the date
pattern's month alternation is a capture group, so `re.findall` returns only
the month names, and the year is dropped from both `start_date` and
`end_date`. -/
theorem C3_experience_drops_year :
    extract_experience "Jan 2022\nEngineer\nAcme\n• Built X\n• Shipped Y\nJan 2023\n...".data =
      [⟨"Engineer".data, "Acme".data, "Jan".data, "Present".data,
        "• Built X\n• Shipped Y".data⟩,
       ⟨"...".data, [], "Jan".data, "Present".data, []⟩] ∧
    "Jan".data ≠ "Jan 2022".data := by
  constructor
  · decide
  · decide

/-- C2 counterexample: on the empty section text every one of the three
sequence extractors returns the empty sequence — the `if not text` early
return fires before the placeholder substitution — refuting "never an empty
sequence" for the empty-string input. -/
theorem C2_counterexample :
    extract_education "".data = [] ∧ extract_experience "".data = [] ∧
    extract_projects "".data = some [] := ⟨rfl, rfl, rfl⟩

/-- C2 (amended): for every NON-empty section text the education, experience
and projects extractors return a non-empty sequence (one all-empty
placeholder record when nothing was found); for the empty string they
return the empty sequence. -/
theorem C2_amended_nonempty (text : Str) (h : text ≠ []) :
    extract_education text ≠ [] ∧ extract_experience text ≠ [] ∧
    ∀ ps, extract_projects text = some ps → ps ≠ [] := by
  refine ⟨?_, ?_, ?_⟩
  · unfold extract_education
    rw [if_neg h]
    exact placeholder_ne_nil _ _
  · unfold extract_experience
    rw [if_neg h]
    exact placeholder_ne_nil _ _
  · intro ps hps
    unfold extract_projects at hps
    rw [if_neg h] at hps
    dsimp only at hps
    rcases hloop : projLoop ⟨none, []⟩ (((pySplitChar '\n' text).map pyStrip).filter (· ≠ [])) with - | st
    · rw [hloop] at hps; exact absurd hps (by simp)
    · rw [hloop] at hps
      dsimp only at hps
      simp only [Option.some_inj] at hps
      rw [← hps]
      exact placeholder_ne_nil _ _

/-- C2 witness: the amended statement at the concrete non-empty text `"x"`. -/
theorem C2_amended_witness :
    "x".data ≠ [] ∧
    (extract_education "x".data ≠ [] ∧ extract_experience "x".data ≠ [] ∧
     ∀ ps, extract_projects "x".data = some ps → ps ≠ []) :=
  ⟨by decide, C2_amended_nonempty "x".data (by decide)⟩

/-- C5 counterexample: in an education record whose lines carry the two year
tokens 2018 and then 2020, `graduation_date` ends as `"2020"` (the LAST
year), not `"2018"` (the first): the year assignment has no "only if unset"
guard. -/
theorem C5_counterexample :
    extract_education "Bachelor of Science\n2018\n2020".data =
      [⟨"Bachelor of Science".data, [], "2020".data, []⟩] ∧
    "2020".data ≠ "2018".data := by
  constructor
  · decide
  · decide

/-- C5 (amended): during the education scan, a line carrying a year token
(and not starting a new record) sets the in-progress record's
`graduation_date` to that year UNCONDITIONALLY, overwriting any earlier
value — so with several year tokens on different lines the last one wins. -/
theorem C5_amended_year_overwrites (e : EduEntry) (acc : List EduEntry) (line y : Str)
    (hd : degreeSearch line = false) (hy : searchRx yearRx line = some y) :
    ∃ e', (eduStep ⟨some e, acc⟩ line).current = some e' ∧ e'.graduation_date = y := by
  rcases hg : searchRx gpaRx line with - | g <;>
    simp only [eduStep, hd, hy, hg, Option.isNone_some, Bool.false_and,
      Bool.false_eq_true, if_false] <;>
    first
      | (split_ifs <;> exact ⟨_, rfl, rfl⟩)
      | exact ⟨_, rfl, rfl⟩

/-- C5 witness: the amended statement at a concrete entry and the line
`"2020"`. -/
theorem C5_amended_witness :
    degreeSearch "2020".data = false ∧ searchRx yearRx "2020".data = some "2020".data ∧
    ∃ e', (eduStep ⟨some ⟨"Bachelor".data, [], "1999".data, []⟩, []⟩ "2020".data).current = some e' ∧
      e'.graduation_date = "2020".data :=
  ⟨by decide, by decide,
   C5_amended_year_overwrites ⟨"Bachelor".data, [], "1999".data, []⟩ [] "2020".data "2020".data
     (by decide) (by decide)⟩

/-- C6 counterexample: the line `"Technologies: React"` contains
"technologies" and is scanned while the record `"My App"` is in progress,
yet it STARTS A NEW RECORD (it begins with an upper-case letter, and the
new-record test runs first) instead of setting the record's technologies to
`"React"`. -/
theorem C6_counterexample :
    extract_projects "My App\nTechnologies: React".data =
      some [⟨"My App".data, [], []⟩, ⟨"Technologies: React".data, [], []⟩] := by
  decide

/-- C6 (amended): a non-blank line containing "technologies" or "tech stack"
(case-insensitive) scanned while a record is in progress sets that record's
technologies to the text after the first colon ONLY IF the line does not
itself trigger the new-record test (not all-uppercase, and not starting
with an upper-case character unless bullet-prefixed); otherwise it starts a
new record. -/
theorem C6_amended_tech_line (p : Project) (acc : List Project) (line : Str)
    (hne : line ≠ []) (hnew : startsNewProject line = false)
    (htech : (containsL (pyLower line) "technologies".data ||
              containsL (pyLower line) "tech stack".data) = true) :
    projStep ⟨some p, acc⟩ line =
      some ⟨some { p with technologies := afterFirstColon line }, acc⟩ := by
  rcases line with - | ⟨c, t⟩
  · exact absurd rfl hne
  · simp only [startsNewProject, Bool.or_eq_false_iff, Bool.and_eq_false_iff] at hnew
    obtain ⟨h1, h2⟩ := hnew
    have h3 : (c.isUpper && !isBulletLine (c :: t)) = false := by
      rcases h2 with h | h <;> simp [h]
    simp only [projStep, h1, h3, htech, Bool.false_eq_true, if_false, if_true]

/-- Sub-score bounds for C1. -/
lemma score_format_structure_bounds (r : ResumeData) :
    0 ≤ score_format_structure r ∧ score_format_structure r ≤ 100 := by
  unfold score_format_structure
  dsimp only
  refine ⟨le_min ?_ (by norm_num), min_le_right _ _⟩
  split_ifs <;> norm_num

lemma score_keywords_bounds (r : ResumeData) :
    0 ≤ score_keywords r ∧ score_keywords r ≤ 100 := by
  unfold score_keywords
  dsimp only
  have h1 : (0:ℚ) ≤ min ((countKeywords technical_keywords (pyLower (get_all_text r)) : ℚ) / 10 * 100) 100 :=
    le_min (by positivity) (by norm_num)
  have h2 : (0:ℚ) ≤ min ((countKeywords action_verbs (pyLower (get_all_text r)) : ℚ) / 8 * 100) 100 :=
    le_min (by positivity) (by norm_num)
  have h3 : (0:ℚ) ≤ min ((countKeywords soft_skills (pyLower (get_all_text r)) : ℚ) / 5 * 100) 100 :=
    le_min (by positivity) (by norm_num)
  have g1 := min_le_right ((countKeywords technical_keywords (pyLower (get_all_text r)) : ℚ) / 10 * 100) 100
  have g2 := min_le_right ((countKeywords action_verbs (pyLower (get_all_text r)) : ℚ) / 8 * 100) 100
  have g3 := min_le_right ((countKeywords soft_skills (pyLower (get_all_text r)) : ℚ) / 5 * 100) 100
  constructor <;> linarith

lemma score_content_quality_bounds (r : ResumeData) :
    0 ≤ score_content_quality r ∧ score_content_quality r ≤ 100 := by
  unfold score_content_quality
  dsimp only
  refine ⟨le_min ?_ (by norm_num), min_le_right _ _⟩
  rcases r.skills with d | s <;> dsimp only <;> split_ifs <;> norm_num

lemma score_completeness_bounds (r : ResumeData) :
    0 ≤ score_completeness r ∧ score_completeness r ≤ 100 := by
  unfold score_completeness
  refine ⟨le_min ?_ (by norm_num), min_le_right _ _⟩
  split_ifs <;> norm_num

lemma score_quantifiable_results_bounds (r : ResumeData) :
    0 ≤ score_quantifiable_results r ∧ score_quantifiable_results r ≤ 100 := by
  unfold score_quantifiable_results
  dsimp only
  split_ifs <;> norm_num

/-- Python `round` maps `[0, 100]` into `[0, 100]`. -/
lemma pyRound_mem_range (q : ℚ) (h0 : 0 ≤ q) (h1 : q ≤ 100) :
    0 ≤ pyRound q ∧ pyRound q ≤ 100 := by
  have hfl : (⌊q⌋ : ℚ) ≤ q := Int.floor_le q
  have hfu : q < ⌊q⌋ + 1 := Int.lt_floor_add_one q
  have hf0 : (0:ℤ) ≤ ⌊q⌋ := Int.floor_nonneg.mpr h0
  have hf1 : ⌊q⌋ ≤ 100 := by
    have h := Int.floor_le_floor h1
    simpa using h
  unfold pyRound
  dsimp only
  split_ifs with ha hb hc
  · exact ⟨hf0, hf1⟩
  · have hlt : (⌊q⌋ : ℚ) < 100 := by linarith
    have h99 : ⌊q⌋ < 100 := by exact_mod_cast hlt
    constructor <;> omega
  · exact ⟨hf0, hf1⟩
  · have htie : q - ⌊q⌋ = 1/2 := le_antisymm (not_lt.mp hb) (not_lt.mp ha)
    have hlt : (⌊q⌋ : ℚ) < 100 := by linarith
    have h99 : ⌊q⌋ < 100 := by exact_mod_cast hlt
    constructor <;> omega

/-- C1: for every well-shaped Resume Record, `calculate_score` is a total
function (it is defined on every `ResumeData`, so it never raises) whose
first component — the final score — is an integer in `[0, 100]`. -/
theorem C1_score_in_range (r : ResumeData) :
    0 ≤ (calculate_score r).1 ∧ (calculate_score r).1 ≤ 100 := by
  have h1 := score_format_structure_bounds r
  have h2 := score_keywords_bounds r
  have h3 := score_content_quality_bounds r
  have h4 := score_completeness_bounds r
  have h5 := score_quantifiable_results_bounds r
  unfold calculate_score
  dsimp only
  exact pyRound_mem_range _ (by linarith [h1.1, h2.1, h3.1, h4.1, h5.1])
    (by linarith [h1.2, h2.2, h3.2, h4.2, h5.2])

/-- C4 counterexample: on `tieRecord` the weighted sum is exactly 8.5;
`calculate_score` returns 8 (Python `round`, ties to even) while the
claimed round-half-up convention would give 9. -/
lemma tieRecord_subscores :
    score_format_structure tieRecord = 0 ∧ score_keywords tieRecord = 0 ∧
    score_content_quality tieRecord = 0 ∧ score_completeness tieRecord = 20 ∧
    score_quantifiable_results tieRecord = 30 := by
  refine ⟨?_, ?_, ?_, ?_, ?_⟩
  · simp [score_format_structure, tieRecord]
  · have e1 : countKeywords technical_keywords (pyLower (get_all_text tieRecord)) = 0 := by decide
    have e2 : countKeywords action_verbs (pyLower (get_all_text tieRecord)) = 0 := by decide
    have e3 : countKeywords soft_skills (pyLower (get_all_text tieRecord)) = 0 := by decide
    unfold score_keywords
    dsimp only
    rw [e1, e2, e3]
    norm_num
  · simp [score_content_quality, tieRecord]
  · simp [score_completeness, tieRecord, Skills.truthy]
    norm_num
  · have q1 : (findallRx numPercentRx (get_all_text tieRecord)).length = 1 := by decide
    have q2 : (findallRx dollarNumRx (get_all_text tieRecord)).length = 0 := by decide
    have q3 : (findallRx numPlusRx (get_all_text tieRecord)).length = 0 := by decide
    have q4 : (achievement_patterns.map fun p =>
        (findallRx p (pyLower (get_all_text tieRecord))).length).sum = 0 := by decide
    unfold score_quantifiable_results
    dsimp only
    rw [q1, q2, q3, q4]
    norm_num

theorem C4_counterexample :
    (calculate_score tieRecord).1 = 8 ∧
    roundHalfUpSpec
      (score_format_structure tieRecord * (1/5) + score_keywords tieRecord * (1/4) +
       score_content_quality tieRecord * (1/5) + score_completeness tieRecord * (1/5) +
       score_quantifiable_results tieRecord * (3/20)) = 9 := by
  obtain ⟨hs1, hs2, hs3, hs4, hs5⟩ := tieRecord_subscores
  have hf : ⌊(17/2 : ℚ)⌋ = 8 := by
    rw [Int.floor_eq_iff]
    norm_num
  constructor
  · show pyRound _ = 8
    rw [hs1, hs2, hs3, hs4, hs5]
    have : (0:ℚ) * (1/5) + 0 * (1/4) + 0 * (1/5) + 20 * (1/5) + 30 * (3/20) = 17/2 := by
      norm_num
    rw [this]
    unfold pyRound
    rw [hf]
    norm_num
  · rw [hs1, hs2, hs3, hs4, hs5]
    have : (0:ℚ) * (1/5) + 0 * (1/4) + 0 * (1/5) + 20 * (1/5) + 30 * (3/20) = 17/2 := by
      norm_num
    rw [this]
    unfold roundHalfUpSpec
    have h9 : (17/2 : ℚ) + 1/2 = 9 := by norm_num
    rw [h9]
    rw [Int.floor_eq_iff]
    norm_num

/-- C4 (amended): the final score is the weighted sum of the five sub-scores
(weights 0.20, 0.25, 0.20, 0.20, 0.15) rounded to the nearest integer with
TIES TO EVEN (Python's `round`): a weighted sum with fractional part
exactly 0.5 rounds to its even neighbour — upward only when the integer
part is odd — and agrees with round-half-up everywhere else. -/
theorem C4_amended_round_half_even (r : ResumeData) :
    (calculate_score r).1 =
      pyRound (score_format_structure r * (1/5) + score_keywords r * (1/4) +
        score_content_quality r * (1/5) + score_completeness r * (1/5) +
        score_quantifiable_results r * (3/20)) ∧
    ∀ q : ℚ, pyRound q =
      if q - ⌊q⌋ = 1/2 ∧ ⌊q⌋ % 2 = 0 then ⌊q⌋ else roundHalfUpSpec q := by
  constructor
  · rfl
  · intro q
    have hfl : (⌊q⌋ : ℚ) ≤ q := Int.floor_le q
    have hfu : q < ⌊q⌋ + 1 := Int.lt_floor_add_one q
    unfold pyRound roundHalfUpSpec
    dsimp only
    rcases lt_trichotomy (q - ⌊q⌋) (1/2) with hlt | heq | hgt
    · rw [if_pos hlt, if_neg (by rintro ⟨h, -⟩; exact absurd h hlt.ne)]
      symm
      rw [Int.floor_eq_iff]
      exact ⟨by linarith, by linarith⟩
    · rw [if_neg (by rw [heq]; norm_num), if_neg (by rw [heq]; norm_num)]
      by_cases hev : ⌊q⌋ % 2 = 0
      · rw [if_pos hev, if_pos ⟨heq, hev⟩]
      · rw [if_neg hev, if_neg (by rintro ⟨-, h⟩; exact hev h)]
        have : q + 1/2 = (⌊q⌋ : ℚ) + 1 := by linarith
        rw [this]
        symm
        rw [Int.floor_eq_iff]
        refine ⟨by push_cast; linarith, by push_cast; linarith⟩
    · rw [if_neg (by linarith), if_pos (by linarith : 1/2 < q - ⌊q⌋),
          if_neg (by rintro ⟨h, -⟩; exact absurd h hgt.ne')]
      symm
      rw [Int.floor_eq_iff]
      constructor <;> push_cast <;> linarith

/-- C8: `parse_file` succeeds exactly on the supported declared kinds
(extensions pdf / docx / doc); for any other kind it returns the fatal
"Unsupported file format" error — and does so for EVERY choice of the two
text-extraction functions, i.e. without performing any extraction, and
without any retry (the result is the error itself). -/
theorem C8_unsupported_format (pdfE docxE : Str → Str) (name content : Str) :
    ((∃ res, parse_file pdfE docxE name content = .ok res) ↔
      (fileTypeOf name = "pdf".data ∨ fileTypeOf name = "docx".data ∨
       fileTypeOf name = "doc".data)) ∧
    ((fileTypeOf name ≠ "pdf".data ∧ fileTypeOf name ≠ "docx".data ∧
      fileTypeOf name ≠ "doc".data) →
      ∀ pdfE' docxE' : Str → Str,
        parse_file pdfE' docxE' name content = .error "Unsupported file format".data) := by
  constructor
  · constructor
    · rintro ⟨res, hres⟩
      by_contra hns
      push_neg at hns
      obtain ⟨hn1, hn2, hn3⟩ := hns
      unfold parse_file at hres
      rw [if_neg hn1, if_neg (by rintro (h | h) <;> [exact hn2 h; exact hn3 h])] at hres
      exact Except.noConfusion hres
    · rintro (h | h | h) <;> unfold parse_file
      · rw [if_pos h]; exact ⟨_, rfl⟩
      · rw [if_neg (by rw [h]; decide), if_pos (Or.inl h)]; exact ⟨_, rfl⟩
      · rw [if_neg (by rw [h]; decide), if_pos (Or.inr h)]; exact ⟨_, rfl⟩
  · rintro ⟨hn1, hn2, hn3⟩ pdfE' docxE'
    unfold parse_file
    rw [if_neg hn1, if_neg (by rintro (h | h) <;> [exact hn2 h; exact hn3 h])]

/-- C8 witness: a `.txt` upload is rejected with the fatal error, for
arbitrary (here: identity) text extractors. -/
theorem C8_witness :
    (fileTypeOf "resume.txt".data ≠ "pdf".data ∧
     fileTypeOf "resume.txt".data ≠ "docx".data ∧
     fileTypeOf "resume.txt".data ≠ "doc".data) ∧
    parse_file id id "resume.txt".data [] = .error "Unsupported file format".data :=
  ⟨by decide, (C8_unsupported_format id id "resume.txt".data []).2 (by decide) id id⟩

/-- C6 witness: the amended statement at the concrete in-progress record
`"app"` and the line `"tech stack: Lean"`. -/
theorem C6_amended_witness :
    "tech stack: Lean".data ≠ [] ∧
    startsNewProject "tech stack: Lean".data = false ∧
    (containsL (pyLower "tech stack: Lean".data) "technologies".data ||
     containsL (pyLower "tech stack: Lean".data) "tech stack".data) = true ∧
    projStep ⟨some ⟨"app".data, [], []⟩, []⟩ "tech stack: Lean".data =
      some ⟨some ⟨"app".data, [], "Lean".data⟩, []⟩ :=
  ⟨by decide, by decide, by decide,
   C6_amended_tech_line ⟨"app".data, [], []⟩ [] "tech stack: Lean".data
     (by decide) (by decide) (by decide)⟩

/-- A line that is no header leaves the initial segmenter state unchanged. -/
lemma segStep_no_header (l : Str) (h : headerOf l = none) :
    segStep ⟨none, [], []⟩ l = ⟨none, [], []⟩ := by
  simp [segStep, h]

lemma foldl_no_header (ls : List Str) (h : ∀ l ∈ ls, headerOf l = none) :
    ls.foldl segStep ⟨none, [], []⟩ = ⟨none, [], []⟩ := by
  induction ls with
  | nil => rfl
  | cons l r ih =>
    rw [List.foldl_cons, segStep_no_header l (h l (by simp))]
    exact ih fun x hx => h x (by simp [hx])

/-- Extending the scanned lines on the left preserves `headerThenCapture`. -/
lemma htc_cons (k a : Str) (rest : List Str)
    (h : headerThenCapture k rest = true) :
    headerThenCapture k (a :: rest) = true := by
  rcases rest with - | ⟨b, r⟩
  · simp [headerThenCapture] at h
  · simp only [headerThenCapture, Bool.or_eq_true]
    exact Or.inr h

/-- A key of a Python-dict assignment is an old key or the assigned key. -/
lemma mem_keys_dictSet {m : List (Str × Str)} {k v k' : Str}
    (hp : k' ∈ (dictSet m k v).map Prod.fst) :
    k' ∈ m.map Prod.fst ∨ k' = k := by
  unfold dictSet at hp
  split_ifs at hp with h
  · rw [List.map_map] at hp
    obtain ⟨q, hq, hqe⟩ := List.mem_map.mp hp
    dsimp only [Function.comp] at hqe
    split_ifs at hqe with h2
    · right; rw [← hqe]
    · left; exact List.mem_map.mpr ⟨q, hq, hqe⟩
  · rw [List.map_append] at hp
    rcases List.mem_append.mp hp with h1 | h1
    · left; exact h1
    · right; simpa using h1
/-- A key of the flushed mapping was already stored, or is the current
section with at least one captured line. -/
lemma mem_keys_segFlush (st : SegState) (k : Str)
    (h : k ∈ (segFlush st).map Prod.fst) :
    k ∈ st.sections.map Prod.fst ∨ (st.current = some k ∧ st.content ≠ []) := by
  obtain ⟨cur, content, sections⟩ := st
  rcases cur with - | sec
  · exact Or.inl h
  · unfold segFlush at h
    dsimp only at h
    split_ifs at h with hcont
    · rcases mem_keys_dictSet h with h1 | h1
      · exact Or.inl h1
      · exact Or.inr ⟨congrArg some h1.symm, hcont⟩
    · exact Or.inl h

/-- Where a key of the final mapping can come from: an entry already stored,
a current section that already captured a line or is about to capture the
next line, or a header-then-non-header pair among the remaining lines. -/
lemma seg_keys_origin (k : Str) :
    ∀ (ls : List Str) (st : SegState),
      k ∈ (segFlush (ls.foldl segStep st)).map Prod.fst →
      k ∈ st.sections.map Prod.fst
      ∨ (st.current = some k ∧ st.content ≠ [])
      ∨ (st.current = some k ∧ firstNonHeader ls)
      ∨ headerThenCapture k ls = true := by
  intro ls
  induction ls with
  | nil =>
    intro st h
    rcases mem_keys_segFlush st k h with h1 | h1
    · exact Or.inl h1
    · exact Or.inr (Or.inl h1)
  | cons a rest ih =>
    intro st h
    rw [List.foldl_cons] at h
    rcases hha : headerOf a with - | s
    · rcases hcur : st.current with - | c
      · have hstep : segStep st a = st := by simp [segStep, hha, hcur]
        rw [hstep] at h
        rcases ih st h with h1 | h1 | h1 | h1
        · exact Or.inl h1
        · rw [hcur] at h1; exact absurd h1.1 (by simp)
        · rw [hcur] at h1; exact absurd h1.1 (by simp)
        · exact Or.inr (Or.inr (Or.inr (htc_cons k a rest h1)))
      · have hstep : segStep st a = { st with content := st.content ++ [a] } := by
          simp [segStep, hha, hcur]
        rw [hstep] at h
        rcases ih _ h with h1 | h1 | h1 | h1
        · exact Or.inl h1
        · exact Or.inr (Or.inr (Or.inl ⟨hcur.symm.trans h1.1, hha⟩))
        · exact Or.inr (Or.inr (Or.inl ⟨hcur.symm.trans h1.1, hha⟩))
        · exact Or.inr (Or.inr (Or.inr (htc_cons k a rest h1)))
    · have hstep : segStep st a = ⟨some s, [], segFlush st⟩ := by
        simp [segStep, hha]
      rw [hstep] at h
      rcases ih _ h with h1 | h1 | h1 | h1
      · rcases mem_keys_segFlush st k h1 with h2 | h2
        · exact Or.inl h2
        · exact Or.inr (Or.inl h2)
      · exact absurd h1.2 (by simp)
      · have hs : s = k := Option.some.inj h1.1
        rcases hrest : rest with - | ⟨b, r⟩
        · rw [hrest] at h1
          exact absurd h1.2 id
        · refine Or.inr (Or.inr (Or.inr ?_))
          rw [hrest] at h1
          have hb : headerOf b = none := h1.2
          simp [headerThenCapture, hha, hs, hb]
      · exact Or.inr (Or.inr (Or.inr (htc_cons k a rest h1)))

/-- Assigning the joined value to the joined dict is joining the assignment. -/
lemma dictSet_map_join (m : List (Str × List Str)) (k : Str) (v : List Str) :
    dictSet (m.map fun p => (p.1, pyJoin "\n".data p.2)) k (pyJoin "\n".data v) =
      (dictSetL m k v).map fun p => (p.1, pyJoin "\n".data p.2) := by
  unfold dictSet dictSetL
  have hany : ((m.map fun p => (p.1, pyJoin "\n".data p.2)).any fun p => p.1 == k) =
      m.any fun p => p.1 == k := by
    induction m with
    | nil => rfl
    | cons q t ih => simp only [List.map_cons, List.any_cons, ih]
  rw [hany]
  split_ifs with h
  · rw [List.map_map, List.map_map]
    apply List.map_congr_left
    intro p _
    dsimp only [Function.comp]
    split_ifs <;> rfl
  · rw [List.map_append]
    rfl

lemma segFlush_joinState (st : SegStateL) :
    segFlush (joinState st) = (segFlushL st).map fun p => (p.1, pyJoin "\n".data p.2) := by
  obtain ⟨cur, content, sections⟩ := st
  rcases cur with - | sec
  · rfl
  · unfold segFlush segFlushL joinState
    dsimp only
    split_ifs with h
    · exact dictSet_map_join sections sec content
    · rfl

lemma segStep_joinState (st : SegStateL) (l : Str) :
    segStep (joinState st) l = joinState (segStepL st l) := by
  obtain ⟨cur, content, sections⟩ := st
  unfold segStep segStepL
  rcases hh : headerOf l with - | s
  · rcases cur with - | c <;> simp [joinState]
  · dsimp only
    rw [segFlush_joinState ⟨cur, content, sections⟩]
    rfl

lemma foldl_joinState (ls : List Str) (st : SegStateL) :
    ls.foldl segStep (joinState st) = joinState (ls.foldl segStepL st) := by
  induction ls generalizing st with
  | nil => rfl
  | cons a r ih =>
    rw [List.foldl_cons, List.foldl_cons, segStep_joinState]
    exact ih (segStepL st a)

/-- The segmenter is the newline-join image of the captured-lines scan. -/
lemma split_into_sections_eq_join (text : Str) :
    split_into_sections text =
      (splitIntoSectionsL text).map fun p => (p.1, pyJoin "\n".data p.2) := by
  unfold split_into_sections splitIntoSectionsL
  have hinit : (⟨none, [], []⟩ : SegState) = joinState ⟨none, [], []⟩ := rfl
  rw [hinit, foldl_joinState, segFlush_joinState]

/-- Membership in a captured-lines dict assignment: an old entry or the new
value. -/
lemma mem_dictSetL {m : List (Str × List Str)} {k : Str} {v : List Str}
    {p : Str × List Str} (hp : p ∈ dictSetL m k v) : p ∈ m ∨ p.2 = v := by
  unfold dictSetL at hp
  split_ifs at hp with h
  · obtain ⟨q, hq, rfl⟩ := List.mem_map.mp hp
    split_ifs with h2
    · right; rfl
    · left; exact hq
  · rcases List.mem_append.mp hp with h1 | h1
    · left; exact h1
    · right; simp only [List.mem_singleton] at h1; rw [h1]

lemma segFlushL_inv (st : SegStateL) (h : ∀ p ∈ st.sections, p.2 ≠ []) :
    ∀ p ∈ segFlushL st, p.2 ≠ [] := by
  intro p hp
  unfold segFlushL at hp
  rcases hcur : st.current with - | sec
  · rw [hcur] at hp; exact h p hp
  · rw [hcur] at hp
    split_ifs at hp with hc
    · rcases mem_dictSetL hp with h1 | h1
      · exact h p h1
      · rw [h1]; exact hc
    · exact h p hp

lemma segStepL_inv (st : SegStateL) (l : Str) (h : ∀ p ∈ st.sections, p.2 ≠ []) :
    ∀ p ∈ (segStepL st l).sections, p.2 ≠ [] := by
  unfold segStepL
  rcases hh : headerOf l with - | sec
  · dsimp only
    split_ifs <;> exact h
  · exact segFlushL_inv st h

lemma foldl_segL_inv (ls : List Str) (st : SegStateL)
    (h : ∀ p ∈ st.sections, p.2 ≠ []) :
    ∀ p ∈ (ls.foldl segStepL st).sections, p.2 ≠ [] := by
  induction ls generalizing st with
  | nil => exact h
  | cons l r ih =>
    rw [List.foldl_cons]
    exact ih (segStepL st l) (segStepL_inv st l h)

/-- C9: the Section Segmenter stores an entry only when at least one line
was captured under its header.  For every text: a text none of whose lines
is a header line segments to the empty mapping; a section key can be
present only if some header line for it is IMMEDIATELY followed by a
non-header line (so a header immediately followed by the next header, or by
end of input, leaves its section absent); the mapping is the newline-join
image of the captured-lines scan, whose stored lists are never empty; and
the concrete header-then-header / header-at-end-of-input texts segment as
claimed. -/
theorem C9_no_empty_sections :
    (∀ text : Str, (∀ l ∈ pySplitChar '\n' text, headerOf l = none) →
      split_into_sections text = []) ∧
    (∀ text k, k ∈ (split_into_sections text).map Prod.fst →
      headerThenCapture k (pySplitChar '\n' text) = true) ∧
    (∀ text : Str, split_into_sections text =
      (splitIntoSectionsL text).map fun p => (p.1, pyJoin "\n".data p.2)) ∧
    (∀ text : Str, ∀ p ∈ splitIntoSectionsL text, p.2 ≠ []) ∧
    split_into_sections "summary\nskills".data = [] ∧
    split_into_sections "education".data = [] ∧
    split_into_sections "summary\nskills\nPython".data =
      [("skills".data, "Python".data)] := by
  refine ⟨?_, ?_, split_into_sections_eq_join, ?_, by decide, by decide, by decide⟩
  · intro text h
    unfold split_into_sections
    rw [foldl_no_header _ h]
    rfl
  · intro text k hk
    unfold split_into_sections at hk
    rcases seg_keys_origin k (pySplitChar '\n' text) ⟨none, [], []⟩ hk with
      h1 | h1 | h1 | h1
    · simp at h1
    · exact absurd h1.1 (by simp)
    · exact absurd h1.1 (by simp)
    · exact h1
  · intro text p hp
    unfold splitIntoSectionsL at hp
    exact segFlushL_inv _ (foldl_segL_inv _ ⟨none, [], []⟩ (by simp)) p hp

/-- C9 witness: the no-header implication at the concrete text
`"hello\nworld"`, and, via the key-origin conjunct, the absence of the
summary section when its header is immediately followed by the education
header. -/
theorem C9_witness :
    split_into_sections "hello\nworld".data = [] ∧
    "summary".data ∉ (split_into_sections "summary\neducation\nMIT".data).map Prod.fst :=
  ⟨C9_no_empty_sections.1 "hello\nworld".data (by decide),
   fun hmem =>
     absurd (C9_no_empty_sections.2.1 "summary\neducation\nMIT".data "summary".data hmem)
       (by decide)⟩

/-- The projects scan step is defined (returns `some`) on every non-empty
line: `line[0]` is only reached on non-empty lines. -/
lemma projStep_isSome (st : ProjState) (l : Str) (h : l ≠ []) :
    (projStep st l).isSome := by
  rcases l with - | ⟨c, t⟩
  · exact absurd rfl h
  · rcases st with ⟨cur, acc⟩
    rcases cur with - | p <;> simp only [projStep] <;> split_ifs <;> simp

lemma projLoop_isSome (ls : List Str) (st : ProjState) (h : ∀ l ∈ ls, l ≠ []) :
    (projLoop st ls).isSome := by
  induction ls generalizing st with
  | nil => rfl
  | cons l r ih =>
    have h1 : l ≠ [] := h l (by simp)
    simp only [projLoop]
    rcases hs : projStep st l with - | st'
    · exact absurd (projStep_isSome st l h1) (by simp [hs])
    · exact ih st' fun x hx => h x (by simp [hx])

/-- C7: the heuristic extractors are total and degrade to the documented
empty values: each personal-info field falls back to the empty string when
its pattern finds nothing; the summary of the empty section is the empty
string (not a lone "."); the projects scan never reaches its one unguarded
indexing (`line[0]`) on any input, because blank lines are filtered out
first; and the empty-section results of the remaining extractors are the
documented defaults.  (The education, experience, skills and summary
extractors contain no partial operation at all, so their totality is by
construction.) -/
theorem C7_extractors_never_raise (text : Str) :
    (findallRx emailRx text = [] → (extract_personal_info text).email = []) ∧
    (findallRx phoneRx text = [] → (extract_personal_info text).phone = []) ∧
    (((pySplitChar '\n' text).map pyStrip).filter (· ≠ []) = [] →
      (extract_personal_info text).name = []) ∧
    (findallRx urlRx text = [] →
      (extract_personal_info text).linkedin = [] ∧
      (extract_personal_info text).github = [] ∧
      (extract_personal_info text).portfolio = []) ∧
    (extract_projects text).isSome ∧
    extract_summary [] = [] ∧
    extract_skills [] = ⟨[], []⟩ ∧
    extract_education [] = [] ∧
    extract_experience [] = [] := by
  refine ⟨?_, ?_, ?_, ?_, ?_, rfl, rfl, rfl, rfl⟩
  · intro h; simp [extract_personal_info, h]
  · intro h; simp [extract_personal_info, h]
  · intro h
    unfold extract_personal_info
    dsimp only
    rw [h]
    rfl
  · intro h
    refine ⟨?_, ?_, ?_⟩ <;> simp [extract_personal_info, h]
  · unfold extract_projects
    split_ifs with h
    · rfl
    · generalize hL : ((pySplitChar '\n' text).map pyStrip).filter (· ≠ []) = L
      dsimp only
      have hl : ∀ l ∈ L, l ≠ [] := by
        intro l hmem
        rw [← hL] at hmem
        exact of_decide_eq_true (List.mem_filter.mp hmem).2
      rcases hs : projLoop ⟨none, []⟩ L with - | st
      · exact absurd (projLoop_isSome L ⟨none, []⟩ hl) (by simp [hs])
      · rfl

/-- C7 witness: the implications discharged at the concrete input `""`. -/
theorem C7_witness :
    (extract_personal_info []).email = [] ∧ (extract_personal_info []).phone = [] ∧
    (extract_personal_info []).name = [] ∧ (extract_personal_info []).linkedin = [] ∧
    (extract_personal_info []).github = [] ∧ (extract_personal_info []).portfolio = [] ∧
    (extract_projects ([] : Str)).isSome :=
  ⟨(C7_extractors_never_raise []).1 (by decide),
   (C7_extractors_never_raise []).2.1 (by decide),
   (C7_extractors_never_raise []).2.2.1 (by decide),
   ((C7_extractors_never_raise []).2.2.2.1 (by decide)).1,
   ((C7_extractors_never_raise []).2.2.2.1 (by decide)).2.1,
   ((C7_extractors_never_raise []).2.2.2.1 (by decide)).2.2,
   (C7_extractors_never_raise []).2.2.2.2.1⟩

end AiResume
